import Mathlib

/-!
Verification development for the in-memory ledger storage backend
(`MockDB` in `shared/src/ledger/storage/mockdb.rs`).

The backend is a `BTreeMap<String, Vec<u8>>`.  We model strings as lists
of characters (UTF-8 byte order on valid strings coincides with code-point
order, so lexicographic comparison of `List Char` is faithful to Rust's
`Ord for String`), byte vectors as `List Nat`, and the map as an
association list kept sorted by the lexicographic order, which is exactly
the state of a `BTreeMap` and its iteration order.
-/

/-- Model of a Rust `String`: its sequence of characters. -/
abbrev Str := List Char

/-- Model of a `Vec<u8>` value blob. -/
abbrev Bytes := List Nat

/-- Lexicographic strict order on strings, as Rust's `Ord for String`
(byte-wise comparison, which on valid UTF-8 equals code-point order). -/
def strLt : Str → Str → Bool
  | _, [] => false
  | [], _ :: _ => true
  | a :: as, b :: bs =>
    if a < b then true
    else if b < a then false
    else strLt as bs

/-- Non-strict counterpart of `strLt` (total order on strings). -/
def strLe (a b : Str) : Bool := !(strLt b a)

/-- The storage error taxonomy of the backend
(`CodingError`, `KeyError`, `UnknownKey`, `Temporary`). -/
inductive DbError where
  | codingError : DbError
  | keyError : DbError
  | unknownKey : Str → DbError
  | temporary : String → DbError
deriving DecidableEq, Repr

/-- Model of the backend's `Result<T>` type. -/
inductive DbResult (α : Type) where
  | ok : α → DbResult α
  | error : DbError → DbResult α
deriving DecidableEq, Repr

/-- The backend state: the `BTreeMap<String, Vec<u8>>` as a sorted
association list (sorted by `strLt`, one entry per key). -/
abbrev Store := List (Str × Bytes)

/-- Model of `BTreeMap::get`. -/
def getVal : Store → Str → Option Bytes
  | [], _ => none
  | (k', v') :: rest, k => if k = k' then some v' else getVal rest k

/-- Model of `BTreeMap::insert`: returns the previous value (if any) and
the updated map, keeping the sorted order. -/
def insertGet : Store → Str → Bytes → Option Bytes × Store
  | [], k, v => (none, [(k, v)])
  | (k', v') :: rest, k, v =>
    if strLt k k' then (none, (k, v) :: (k', v') :: rest)
    else if k = k' then (some v', (k, v) :: rest)
    else
      let r := insertGet rest k v
      (r.1, (k', v') :: r.2)

/-- Insertion forgetting the previous value. -/
def insertVal (db : Store) (k : Str) (v : Bytes) : Store := (insertGet db k v).2

/-- Model of `BTreeMap::remove`: returns the removed value (if any) and
the updated map. -/
def removeGet : Store → Str → Option Bytes × Store
  | [], _ => (none, [])
  | (k', v') :: rest, k =>
    if k = k' then (some v', rest)
    else
      let r := removeGet rest k
      (r.1, (k', v') :: r.2)

/-- Model of `BTreeMap::range((Included(lo), Excluded(hi)))`: the entries
whose key lies in the half-open lexicographic interval, in map order.
(Rust's `range` panics when `lo > hi`; the model then returns the empty
list, which the caller surfaces as an error.) -/
def rangeVals (db : Store) (lo hi : Str) : List (Str × Bytes) :=
  db.filter fun e => strLe lo e.1 && strLt e.1 hi

/-- Model of Rust `str::split('/')` on the key separator: splits into
segments, keeping empty segments (so a trailing separator yields a final
empty segment, as in Rust). -/
def splitSep : Str → List Str
  | [] => [[]]
  | c :: rest =>
    if c = '/' then [] :: splitSep rest
    else
      match splitSep rest with
      | s :: ss => (c :: s) :: ss
      | [] => [[c]]

/-- Model of `str::strip_prefix`: `some` of the remainder when the prefix
matches, `none` otherwise. -/
def stripPrefixStr (p k : Str) : Option Str :=
  if p.isPrefixOf k then some (k.drop p.length) else none

/-- Decimal digit character. -/
def digitChar (d : Nat) : Char :=
  if d = 0 then '0'
  else if d = 1 then '1'
  else if d = 2 then '2'
  else if d = 3 then '3'
  else if d = 4 then '4'
  else if d = 5 then '5'
  else if d = 6 then '6'
  else if d = 7 then '7'
  else if d = 8 then '8'
  else '9'

/-- Fueled decimal conversion (structural recursion on the fuel). -/
def natToDecimalFuel : Nat → Nat → Str
  | 0, _ => []
  | f + 1, n =>
    if n < 10 then [digitChar n]
    else natToDecimalFuel f (n / 10) ++ [digitChar (n % 10)]

/-- Modelled from the spec: a block height's key segment is its decimal
string form (`\x7bheight\x7d/...` keys such as `5/hash`); `BlockHeight::raw`
and `KeySeg` live outside the covered source. -/
def natToDecimal (n : Nat) : Str := natToDecimalFuel (n + 1) n

/-- A storage `Key`: an ordered sequence of string segments
(`shared/src/types/storage.rs`, modelled from the spec where needed). -/
structure Key where
  segments : List Str
deriving DecidableEq, Repr

/-- Model of `Key::to_string`: segments joined by the `/` separator. -/
def joinSegs : List Str → Str
  | [] => []
  | [s] => s
  | s :: s' :: rest => s ++ '/' :: joinSegs (s' :: rest)

/-- Canonical string form of a `Key`. -/
def keyString (k : Key) : Str := joinSegs k.segments

/-- Model of `Key::join`: concatenation of the segment lists. -/
def keyJoin (a b : Key) : Key := ⟨a.segments ++ b.segments⟩

/-- The full backend key of a subspace entry:
`Key::parse("subspace").join(key)` rendered as a string.  (`Key::parse`
of the constant segment `subspace` always succeeds, so its error path is
dead and the construction is pure.) -/
def subspaceDbKey (k : Key) : Str := keyString (keyJoin ⟨[("subspace").data]⟩ k)

example : subspaceDbKey ⟨[("a").data, ("x").data]⟩ = ("subspace/a/x").data := by decide

example : strLt (("19/").data) (("2/hash").data) = true := by decide

example : natToDecimal 19 = ("19").data := by decide

/-- Codec model for the integer-like typed fields (`BlockHeight`, `Epoch`,
`DateTimeUtc`): an injective encoding with a total decoder on its image.
The source treats the codec as an opaque collaborator. -/
def encodeNat (n : Nat) : Bytes := [n]

/-- Decoder for `encodeNat`: fails (a `CodingError`) on anything that is
not a singleton. -/
def decodeNat : Bytes → Option Nat
  | [n] => some n
  | _ => none

/-- Codec model for the opaque blob fields (root, store, hash,
pred_epochs, address_gen): the identity. -/
def encodeBlob (b : Bytes) : Bytes := b

/-- Decoder for `encodeBlob`. -/
def decodeBlob (b : Bytes) : Option Bytes := some b

/-- The unscoped key holding the latest committed height. -/
def heightKey : Str := ("height").data

/-- The unscoped epoch-schedule key `next_epoch_min_start_height`. -/
def nehKey : Str := ("next_epoch_min_start_height").data

/-- The unscoped epoch-schedule key `next_epoch_min_start_time`. -/
def netKey : Str := ("next_epoch_min_start_time").data

/-- The message of the `Temporary` backend-integrity error raised when a
required height-scoped field is missing after the scan. -/
def tempMsg : String := "Essential data could not be read from the DB"

/-- The block state as read back by `read_last_block`
(`BlockStateRead`). -/
structure BlockStateRead where
  root : Bytes
  store : Bytes
  hash : Bytes
  height : Nat
  epoch : Nat
  pred_epochs : Bytes
  next_epoch_min_start_height : Nat
  next_epoch_min_start_time : Nat
  address_gen : Bytes
deriving DecidableEq, Repr

/-- The block state handed to `write_block` (`BlockStateWrite`). -/
structure BlockStateWrite where
  root : Bytes
  store : Bytes
  hash : Bytes
  height : Nat
  epoch : Nat
  pred_epochs : Bytes
  next_epoch_min_start_height : Nat
  next_epoch_min_start_time : Nat
  address_gen : Bytes
deriving DecidableEq, Repr

/-- The six mutable accumulators of `read_last_block`'s scan loop. -/
structure ScanFields where
  root : Option Bytes
  store : Option Bytes
  hash : Option Bytes
  epoch : Option Nat
  pred_epochs : Option Bytes
  address_gen : Option Bytes
deriving DecidableEq, Repr

/-- All accumulators start out empty. -/
def ScanFields.init : ScanFields := ⟨none, none, none, none, none, none⟩

/-- The effect of one accepted scanned entry. -/
inductive FieldUpdate where
  | setRoot : Bytes → FieldUpdate
  | setStore : Bytes → FieldUpdate
  | setHash : Bytes → FieldUpdate
  | setEpoch : Nat → FieldUpdate
  | setPredEpochs : Bytes → FieldUpdate
  | setAddressGen : Bytes → FieldUpdate
deriving DecidableEq, Repr

/-- One iteration of `read_last_block`'s scan loop: split the key on the
segment separator and dispatch on the second (and for `tree` the third)
segment, decoding the value; any unrecognized shape is an `UnknownKey`
error (`mockdb.rs` lines 84-129). -/
def classify (path : Str) (bytes : Bytes) : DbResult FieldUpdate :=
  let segments := splitSep path
  match segments.get? 1 with
  | some s1 =>
    if s1 = ("tree").data then
      match segments.get? 2 with
      | some s2 =>
        if s2 = ("root").data then
          match decodeBlob bytes with
          | some v => .ok (.setRoot v)
          | none => .error .codingError
        else if s2 = ("store").data then
          match decodeBlob bytes with
          | some v => .ok (.setStore v)
          | none => .error .codingError
        else .error (.unknownKey path)
      | none => .error (.unknownKey path)
    else if s1 = ("hash").data then
      match decodeBlob bytes with
      | some v => .ok (.setHash v)
      | none => .error .codingError
    else if s1 = ("epoch").data then
      match decodeNat bytes with
      | some n => .ok (.setEpoch n)
      | none => .error .codingError
    else if s1 = ("pred_epochs").data then
      match decodeBlob bytes with
      | some v => .ok (.setPredEpochs v)
      | none => .error .codingError
    else if s1 = ("address_gen").data then
      match decodeBlob bytes with
      | some v => .ok (.setAddressGen v)
      | none => .error .codingError
    else .error (.unknownKey path)
  | none => .error (.unknownKey path)

/-- Record an accepted entry in the accumulators. -/
def applyUpdate (f : ScanFields) : FieldUpdate → ScanFields
  | .setRoot v => { f with root := some v }
  | .setStore v => { f with store := some v }
  | .setHash v => { f with hash := some v }
  | .setEpoch n => { f with epoch := some n }
  | .setPredEpochs v => { f with pred_epochs := some v }
  | .setAddressGen v => { f with address_gen := some v }

/-- The scan loop of `read_last_block` over the range result: accepted
entries update the accumulators in order, the first failing entry aborts
the whole read. -/
def scanFields : List (Str × Bytes) → ScanFields → DbResult ScanFields
  | [], acc => .ok acc
  | (k, v) :: rest, acc =>
    match classify k v with
    | .ok u => scanFields rest (applyUpdate acc u)
    | .error e => .error e

/-- The final match of `read_last_block`: all six fields present yields
the block state, anything else the `Temporary` integrity error
(`mockdb.rs` lines 131-154). -/
def finalize (f : ScanFields) (height neh net : Nat) :
    DbResult (Option BlockStateRead) :=
  match f.root, f.store, f.hash, f.epoch, f.pred_epochs, f.address_gen with
  | some root, some store, some hash, some epoch, some pe, some ag =>
    .ok (some { root := root, store := store, hash := hash, height := height,
                epoch := epoch, pred_epochs := pe,
                next_epoch_min_start_height := neh,
                next_epoch_min_start_time := net, address_gen := ag })
  | _, _, _, _, _, _ => .error (.temporary tempMsg)

/-- The scanned range's lower bound for a height (`format!("{}/", h)`),
and with `h+1` the exclusive upper bound (`next_height`). -/
def heightPrefixStr (h : Nat) : Str := natToDecimal h ++ [('/')]

/-- The height-scoped phase of `read_last_block`: scan the lexicographic
range `[h/, (h+1)/)` of the map and assemble the block state. -/
def loadAtHeight (db : Store) (height neh net : Nat) :
    DbResult (Option BlockStateRead) :=
  match scanFields (rangeVals db (heightPrefixStr height)
      (heightPrefixStr (height + 1))) ScanFields.init with
  | .error e => .error e
  | .ok f => finalize f height neh net

/-- Model of `MockDB::read_last_block` (`mockdb.rs` lines 44-155):
absence of the `height` key (and likewise of either unscoped
epoch-schedule key) returns `Ok(None)`; decoding failures are
`CodingError`; otherwise the height-scoped range is scanned. -/
def read_last_block (db : Store) : DbResult (Option BlockStateRead) :=
  match getVal db heightKey with
  | none => .ok none
  | some hb =>
    match decodeNat hb with
    | none => .error .codingError
    | some height =>
      match getVal db nehKey with
      | none => .ok none
      | some ab =>
        match decodeNat ab with
        | none => .error .codingError
        | some neh =>
          match getVal db netKey with
          | none => .ok none
          | some bb =>
            match decodeNat bb with
            | none => .error .codingError
            | some net => loadAtHeight db height neh net

/-- Model of `MockDB::write_block` (`mockdb.rs` lines 157-246): point
writes of the two unscoped epoch-schedule keys, the six height-scoped
keys, and finally the unscoped `height` marker.  The `Key::push` calls
use constant separator-free segments, so their error path is dead and
the operation is total. -/
def write_block (db : Store) (s : BlockStateWrite) : Store :=
  let p := natToDecimal s.height
  let db := insertVal db nehKey (encodeNat s.next_epoch_min_start_height)
  let db := insertVal db netKey (encodeNat s.next_epoch_min_start_time)
  let db := insertVal db (p ++ ("/tree/root").data) (encodeBlob s.root)
  let db := insertVal db (p ++ ("/tree/store").data) (encodeBlob s.store)
  let db := insertVal db (p ++ ("/hash").data) (encodeBlob s.hash)
  let db := insertVal db (p ++ ("/epoch").data) (encodeNat s.epoch)
  let db := insertVal db (p ++ ("/pred_epochs").data) (encodeBlob s.pred_epochs)
  let db := insertVal db (p ++ ("/address_gen").data) (encodeBlob s.address_gen)
  insertVal db heightKey (encodeNat s.height)

/-- Model of `MockDB::read_subspace_val`: point read of
`subspace/<key>`; absence is `Ok(None)`. -/
def read_subspace_val (db : Store) (key : Key) : DbResult (Option Bytes) :=
  .ok (getVal db (subspaceDbKey key))

/-- Model of `MockDB::write_subspace_val` (`mockdb.rs` lines 255-276):
upsert returning the signed byte-size delta. -/
def write_subspace_val (db : Store) (_height : Nat) (key : Key)
    (value : Bytes) : DbResult Int × Store :=
  (match (insertGet db (subspaceDbKey key) value).1 with
    | some prev => .ok ((value.length : Int) - (prev.length : Int))
    | none => .ok (value.length : Int),
   (insertGet db (subspaceDbKey key) value).2)

/-- Model of `MockDB::delete_subspace_val` (`mockdb.rs` lines 278-290):
removal returning the freed byte length, `0` if absent. -/
def delete_subspace_val (db : Store) (_height : Nat) (key : Key) :
    DbResult Int × Store :=
  (match (removeGet db (subspaceDbKey key)).1 with
    | some value => .ok (value.length : Int)
    | none => .ok 0,
   (removeGet db (subspaceDbKey key)).2)

/-- The inert write batch of the mock backend (`MockDBWriteBatch`). -/
inductive MockDBWriteBatch where
  | mk : MockDBWriteBatch
deriving DecidableEq, Repr

/-- Model of `MockDB::exec_batch`: nothing to do, batch writes were
already committed directly. -/
def exec_batch (db : Store) (_batch : MockDBWriteBatch) :
    DbResult Unit × Store :=
  (.ok (), db)

/-- Model of `MockDB::batch_write_subspace_val` (`mockdb.rs` lines
302-324): applies the write immediately, ignoring the batch. -/
def batch_write_subspace_val (db : Store) (_batch : MockDBWriteBatch)
    (_height : Nat) (key : Key) (value : Bytes) : DbResult Int × Store :=
  (match (insertGet db (subspaceDbKey key) value).1 with
    | some prev => .ok ((value.length : Int) - (prev.length : Int))
    | none => .ok (value.length : Int),
   (insertGet db (subspaceDbKey key) value).2)

/-- Model of `MockDB::batch_delete_subspace_val` (`mockdb.rs` lines
326-339): applies the delete immediately, ignoring the batch. -/
def batch_delete_subspace_val (db : Store) (_batch : MockDBWriteBatch)
    (_height : Nat) (key : Key) : DbResult Int × Store :=
  (match (removeGet db (subspaceDbKey key)).1 with
    | some value => .ok (value.length : Int)
    | none => .ok 0,
   (removeGet db (subspaceDbKey key)).2)

/-- The backend namespace marker stripped by the prefix iterator
(`db_prefix` in `MockDB::iter_prefix`). -/
def subspaceMarker : Str := ("subspace/").data

/-- Model of `MockIterator::next` run to exhaustion over the map
snapshot: keeps exactly the entries whose full key starts with the
requested prefix string (`mockdb.rs` lines 364-378). -/
def mockIteratorFilter (p : Str) : List (Str × Bytes) → List (Str × Bytes)
  | [] => []
  | (k, v) :: rest =>
    if p.isPrefixOf k then (k, v) :: mockIteratorFilter p rest
    else mockIteratorFilter p rest

/-- Model of `PrefixIterator<MockIterator>::next` run to exhaustion
(`mockdb.rs` lines 380-400): strip the `db_prefix` marker, skipping
(not erroring on) entries where it does not match, and annotate each
entry with `gas = stripped-key length + value length`. -/
def prefixIteratorRun (marker : Str) :
    List (Str × Bytes) → List (Str × Bytes × Nat)
  | [] => []
  | (k, v) :: rest =>
    match stripPrefixStr marker k with
    | some kr => (kr, v, kr.length + v.length) :: prefixIteratorRun marker rest
    | none => prefixIteratorRun marker rest

/-- Model of `MockDB::iter_prefix` (`mockdb.rs` lines 345-350): filter a
snapshot of the map by the raw string prefix `subspace/<prefix>`, then
relativize by stripping `subspace/` and meter each entry. -/
def iterPrefixEntries (db : Store) (p : Key) : List (Str × Bytes × Nat) :=
  prefixIteratorRun subspaceMarker
    (mockIteratorFilter (subspaceMarker ++ keyString p) db)

/-- The condition under which `read_last_block` answers `Ok(None)`: the
`height` key is absent, or it decodes and `next_epoch_min_start_height`
is absent, or that also decodes and `next_epoch_min_start_time` is
absent. -/
def returnsNoneCond (db : Store) : Bool :=
  match getVal db heightKey with
  | none => true
  | some hb =>
    match decodeNat hb with
    | none => false
    | some _ =>
      match getVal db nehKey with
      | none => true
      | some ab =>
        match decodeNat ab with
        | none => false
        | some _ =>
          match getVal db netKey with
          | none => true
          | some _ => false

/-- A scanned key is accepted by the loop body of `read_last_block`. -/
def stepAccepts (e : Str × Bytes) : Bool :=
  match classify e.1 e.2 with
  | .ok _ => true
  | .error _ => false

/-- The shape test of the scan loop on the key alone: does the key's
second segment (and for `tree` its third) name one of the six known
height-scoped fields. -/
def matchesKnown (path : Str) : Bool :=
  let segments := splitSep path
  match segments.get? 1 with
  | some s1 =>
    if s1 = ("tree").data then
      match segments.get? 2 with
      | some s2 => s2 == ("root").data || s2 == ("store").data
      | none => false
    else
      s1 == ("hash").data || s1 == ("epoch").data ||
        s1 == ("pred_epochs").data || s1 == ("address_gen").data
  | none => false

/-! ## Concrete stores used by the witnesses and counterexamples -/

/-- A block committed at height 2. -/
def s2w : BlockStateWrite := ⟨[20], [21], [2], 2, 1, [0], 3, 100, [22]⟩

/-- A block committed at height 19, with contents entirely different
from the height-2 block. -/
def s19w : BlockStateWrite := ⟨[30], [31], [19], 19, 2, [0, 3], 20, 200, [32]⟩

/-- The store after committing the height-2 block and then the
height-19 block. -/
def dbC1 : Store := write_block (write_block [] s2w) s19w

/-- A block committed at height 9. -/
def s9w : BlockStateWrite := ⟨[1], [2], [3], 9, 4, [5], 10, 11, [6]⟩

/-- The subspace holding exactly `a/x -> "1"` and `a/y -> "22"`
(byte values `[49]` and `[50, 50]`). -/
def dbC2 : Store :=
  (write_subspace_val
    (write_subspace_val [] 0 ⟨[("a").data, ("x").data]⟩ [49]).2
    0 ⟨[("a").data, ("y").data]⟩ [50, 50]).2

/-- A store whose height-5 data lacks five of the six required fields. -/
def dbC5 : Store :=
  insertVal (insertVal (insertVal (insertVal [] heightKey (encodeNat 5))
    nehKey (encodeNat 1)) netKey (encodeNat 2)) (("5/hash").data) [7]

/-- A store manually populated with the bare height-scoped key
`5/tree`, which names none of the six known fields. -/
def dbC6 : Store :=
  insertVal (insertVal (insertVal (insertVal [] heightKey (encodeNat 5))
    nehKey (encodeNat 1)) netKey (encodeNat 2)) (("5/tree").data) [0]

/-- A store holding one subspace entry whose key `ab/x` extends the
string `a` without a segment boundary. -/
def dbC10 : Store := (write_subspace_val [] 0 ⟨[("ab").data, ("x").data]⟩ [3]).2

/-- A store holding the subspace entry `a -> [7, 8]`. -/
def dbC8 : Store := [((("subspace/a").data), [7, 8])]

/-! ## Helper lemmas -/

/-- `finalize` never answers `Ok(None)`: the fresh-store answer can only
come from the missing-key checks before the scan. -/
theorem finalize_ne_ok_none (f : ScanFields) (h a b : Nat) :
    finalize f h a b ≠ .ok none := by
  rcases f with ⟨r, s, hh, e, p, g⟩
  cases r <;> cases s <;> cases hh <;> cases e <;> cases p <;> cases g <;>
    simp [finalize]

/-- The height-scoped phase never answers `Ok(None)` either. -/
theorem loadAtHeight_ne_ok_none (db : Store) (h a b : Nat) :
    loadAtHeight db h a b ≠ .ok none := by
  unfold loadAtHeight
  cases hs : scanFields (rangeVals db (heightPrefixStr h)
      (heightPrefixStr (h + 1))) ScanFields.init with
  | ok f => simpa using finalize_ne_ok_none f h a b
  | error e => simp

/-- With at least one required field still missing, `finalize` raises
the `Temporary` integrity error. -/
theorem finalize_missing (f : ScanFields) (h a b : Nat)
    (hm : f.root = none ∨ f.store = none ∨ f.hash = none ∨ f.epoch = none ∨
      f.pred_epochs = none ∨ f.address_gen = none) :
    finalize f h a b = .error (.temporary tempMsg) := by
  rcases f with ⟨r, s, hh, e, p, g⟩
  cases r <;> cases s <;> cases hh <;> cases e <;> cases p <;> cases g <;>
    simp_all [finalize]

/-! ## C1 -/

/-- C1: the claim that the scanned lexicographic range
`[<h>/, <h+1>/)` contains only height-`h` keys fails on the code: with
blocks committed at heights 2 and then 19, the key `2/hash` (and its five
siblings) lies inside the scanned range `["19/", "20/")`, and
`read_last_block` returns a state carrying height 19 but the root, store,
hash, epoch, pred_epochs and address_gen of height 2 — another previously
committed height's data is both visited and exposed. -/
theorem C1_height_range_overlap :
    (("2/hash").data) ∈
      (rangeVals dbC1 (heightPrefixStr 19) (heightPrefixStr 20)).map Prod.fst ∧
    read_last_block dbC1 =
      .ok (some { root := s2w.root, store := s2w.store, hash := s2w.hash,
                  height := s19w.height, epoch := s2w.epoch,
                  pred_epochs := s2w.pred_epochs,
                  next_epoch_min_start_height := s19w.next_epoch_min_start_height,
                  next_epoch_min_start_time := s19w.next_epoch_min_start_time,
                  address_gen := s2w.address_gen }) ∧
    s2w.hash ≠ s19w.hash := by decide

/-! ## C4 -/

/-- C4: write-then-read fails at height 9: after `write_block` of a
height-9 block into the fresh store, the scan bounds are inverted
(`"10/" < "9/"` lexicographically, on which Rust's `BTreeMap::range`
panics), the scanned range holds no entry, and `read_last_block` answers
the `Temporary` error instead of the block just written. -/
theorem C4_write_then_read_fails_at_height_nine :
    read_last_block (write_block [] s9w) = .error (.temporary tempMsg) ∧
    rangeVals (write_block [] s9w) (heightPrefixStr 9) (heightPrefixStr 10) = [] ∧
    strLt (heightPrefixStr 10) (heightPrefixStr 9) = true := by decide

/-! ## C2 -/

/-- C2, counterexample: on the subspace `a/x -> [49]`, `a/y -> [50, 50]`,
iteration under prefix `a` does not yield the claimed triples
`("x", [49], 2)` and `("y", [50, 50], 3)`. -/
theorem C2_counterexample :
    iterPrefixEntries dbC2 ⟨[("a").data]⟩ ≠
      [((("x").data), [49], 2), ((("y").data), [50, 50], 3)] := by decide

/-- C2, amended: iteration under prefix `a` yields exactly
`("a/x", [49], 4)` and `("a/y", [50, 50], 5)` in lexicographic key
order: the yielded key is relativized only by the backend marker
`subspace/` (the user prefix `a` is kept), and the gas is the byte
length of that marker-stripped key plus the byte length of the value. -/
theorem C2_iteration_gas :
    iterPrefixEntries dbC2 ⟨[("a").data]⟩ =
      [((("a/x").data), [49], 4), ((("a/y").data), [50, 50], 5)] := by decide

/-! ## C3 -/

/-- C3, counterexample: a store holding only the `height` key makes
`read_last_block` answer `Ok(None)` even though the `height` key is
present, refuting the claimed equivalence. -/
theorem C3_counterexample :
    read_last_block [(heightKey, [1])] = .ok none ∧
    getVal [(heightKey, [1])] heightKey ≠ none := by decide

/-- C3, amended: `read_last_block` answers `Ok(None)` exactly when the
`height` key is absent, or it decodes and `next_epoch_min_start_height`
is absent, or that also decodes and `next_epoch_min_start_time` is
absent; in particular a store with zero writes answers `Ok(None)`. -/
theorem C3_none_iff (db : Store) :
    read_last_block db = .ok none ↔ returnsNoneCond db = true := by
  unfold read_last_block returnsNoneCond
  cases h1 : getVal db heightKey with
  | none => simp [h1]
  | some hb =>
    cases h2 : decodeNat hb with
    | none => simp [h1, h2]
    | some height =>
      cases h3 : getVal db nehKey with
      | none => simp [h1, h2, h3]
      | some ab =>
        cases h4 : decodeNat ab with
        | none => simp [h1, h2, h3, h4]
        | some neh =>
          cases h5 : getVal db netKey with
          | none => simp [h1, h2, h3, h4, h5]
          | some bb =>
            cases h6 : decodeNat bb with
            | none => simp [h1, h2, h3, h4, h5, h6]
            | some net =>
              simp [h1, h2, h3, h4, h5, h6,
                loadAtHeight_ne_ok_none db height neh net]

/-! ## C5 -/

/-- C5: whenever the `height` key and both epoch-schedule keys are
present and decode, and the scan of the height-scoped range completes
without error yet leaves at least one of the six required fields
(tree/root, tree/store, hash, epoch, pred_epochs, address_gen) unset,
`read_last_block` returns the `Temporary` backend-integrity error — in
particular not the fresh-store answer `Ok(None)`. -/
theorem C5_missing_field_temporary (db : Store) (hb ab bb : Bytes)
    (h neh net : Nat) (f : ScanFields)
    (h1 : getVal db heightKey = some hb) (h2 : decodeNat hb = some h)
    (h3 : getVal db nehKey = some ab) (h4 : decodeNat ab = some neh)
    (h5 : getVal db netKey = some bb) (h6 : decodeNat bb = some net)
    (h7 : scanFields (rangeVals db (heightPrefixStr h)
      (heightPrefixStr (h + 1))) ScanFields.init = .ok f)
    (h8 : f.root = none ∨ f.store = none ∨ f.hash = none ∨ f.epoch = none ∨
      f.pred_epochs = none ∨ f.address_gen = none) :
    read_last_block db = .error (.temporary tempMsg) ∧
      read_last_block db ≠ .ok none := by
  have hr : read_last_block db = loadAtHeight db h neh net := by
    simp [read_last_block, h1, h2, h3, h4, h5, h6]
  have hl : loadAtHeight db h neh net = .error (.temporary tempMsg) := by
    simp [loadAtHeight, h7, finalize_missing f h neh net h8]
  refine ⟨by rw [hr, hl], by rw [hr, hl]; simp⟩

/-- Witness for C5 at a concrete store whose height-5 data holds only a
`5/hash` entry. -/
theorem C5_missing_field_temporary_witness :
    read_last_block dbC5 = .error (.temporary tempMsg) ∧
      read_last_block dbC5 ≠ .ok none := by
  exact C5_missing_field_temporary dbC5 [5] [1] [2] 5 1 2
    ⟨none, none, some [7], none, none, none⟩
    (by decide) (by decide) (by decide) (by decide) (by decide) (by decide)
    (by decide) (by decide)

/-! ## C6 -/

/-- A key whose segments match none of the six known height-scoped
fields is classified as an `UnknownKey` error for any value. -/
theorem classify_of_not_matches (k : Str) (v : Bytes)
    (hm : matchesKnown k = false) : classify k v = .error (.unknownKey k) := by
  simp only [classify, matchesKnown] at hm ⊢
  cases hs : (splitSep k).get? 1 with
  | none => simp [hs]
  | some s1 =>
    simp only [hs] at hm ⊢
    by_cases ht : s1 = ("tree").data
    · simp only [ht, if_true] at hm ⊢
      cases hs2 : (splitSep k).get? 2 with
      | none => simp [hs2]
      | some s2 =>
        simp only [hs2] at hm ⊢
        by_cases hr : s2 = ("root").data
        · simp [hr] at hm
        · by_cases hst : s2 = ("store").data
          · simp [hst] at hm
          · simp [hr, hst]
    · by_cases hh : s1 = ("hash").data
      · simp [ht, hh] at hm
      · by_cases he : s1 = ("epoch").data
        · simp [ht, hh, he] at hm
        · by_cases hp : s1 = ("pred_epochs").data
          · simp [ht, hh, he, hp] at hm
          · by_cases ha : s1 = ("address_gen").data
            · simp [ht, hh, he, hp, ha] at hm
            · simp [ht, hh, he, hp, ha]

/-- The scan aborts with the classifying error of the first entry that
fails, provided every earlier entry is accepted. -/
theorem scanFields_append_error (good : List (Str × Bytes)) (k : Str)
    (v : Bytes) (rest : List (Str × Bytes)) (err : DbError)
    (hg : good.all stepAccepts = true)
    (hk : classify k v = .error err) :
    ∀ acc, scanFields (good ++ (k, v) :: rest) acc = .error err := by
  induction good with
  | nil => intro acc; simp only [List.nil_append, scanFields, hk]
  | cons e es ih =>
    intro acc
    rcases e with ⟨ek, ev⟩
    simp only [List.all_cons, Bool.and_eq_true] at hg
    cases hc : classify ek ev with
    | ok u =>
      simp only [List.cons_append, scanFields, hc]
      exact ih hg.2 _
    | error e2 =>
      exfalso
      have hacc := hg.1
      simp [stepAccepts, hc] at hacc

/-- C6: when the `height` key and the epoch-schedule keys are present
and decode, and the scanned height range consists of accepted entries
followed by a key whose sub-segments match none of the six known fields
(such as a bare `<height>/tree`), `read_last_block` fails with the
`UnknownKey` error naming that key instead of skipping it. -/
theorem C6_unknown_key_rejected (db : Store) (hb ab bb : Bytes)
    (h neh net : Nat) (good rest : List (Str × Bytes)) (k : Str) (v : Bytes)
    (h1 : getVal db heightKey = some hb) (h2 : decodeNat hb = some h)
    (h3 : getVal db nehKey = some ab) (h4 : decodeNat ab = some neh)
    (h5 : getVal db netKey = some bb) (h6 : decodeNat bb = some net)
    (h7 : rangeVals db (heightPrefixStr h) (heightPrefixStr (h + 1)) =
      good ++ (k, v) :: rest)
    (h8 : good.all stepAccepts = true)
    (h9 : matchesKnown k = false) :
    read_last_block db = .error (.unknownKey k) := by
  have hr : read_last_block db = loadAtHeight db h neh net := by
    simp [read_last_block, h1, h2, h3, h4, h5, h6]
  rw [hr]
  unfold loadAtHeight
  rw [h7, scanFields_append_error good k v rest _ h8
    (classify_of_not_matches k v h9) ScanFields.init]

/-- Witness for C6 at a concrete store populated with the bare
height-scoped key `5/tree`. -/
theorem C6_unknown_key_rejected_witness :
    read_last_block dbC6 = .error (.unknownKey (("5/tree").data)) := by
  exact C6_unknown_key_rejected dbC6 [5] [1] [2] 5 1 2 [] []
    (("5/tree").data) [0]
    (by decide) (by decide) (by decide) (by decide) (by decide) (by decide)
    (by decide) (by decide) (by decide)

/-! ## C7 -/

/-- String comparison is irreflexive. -/
theorem strLt_irrefl (s : Str) : strLt s s = false := by
  induction s with
  | nil => rfl
  | cons a as ih => simp [strLt, ih]

/-- Inserting an absent key reports no previous value. -/
theorem insertGet_fst_of_absent (db : Store) (k : Str) (v : Bytes)
    (h : getVal db k = none) : (insertGet db k v).1 = none := by
  induction db with
  | nil => rfl
  | cons e rest ih =>
    rcases e with ⟨k', v'⟩
    simp only [getVal] at h
    by_cases hk : k = k'
    · simp [hk] at h
    · simp only [if_neg hk] at h
      simp only [insertGet]
      by_cases hlt : strLt k k' = true
      · simp [hlt]
      · simp [hlt, hk, ih h]

/-- Inserting the same key twice reports the first inserted value as the
previous one. -/
theorem insertGet_fst_insert_self (db : Store) (k : Str) (v v2 : Bytes) :
    (insertGet (insertGet db k v).2 k v2).1 = some v := by
  induction db with
  | nil => simp [insertGet, strLt_irrefl]
  | cons e rest ih =>
    rcases e with ⟨k', v'⟩
    simp only [insertGet]
    by_cases hlt : strLt k k' = true
    · simp [hlt, insertGet, strLt_irrefl]
    · by_cases hk : k = k'
      · subst hk
        simp [hlt, insertGet, strLt_irrefl]
      · simp [hlt, hk, insertGet, ih]

/-- The store produced by a subspace write is the one produced by the
underlying map insertion. -/
theorem write_subspace_val_snd (db : Store) (h : Nat) (k : Key) (v : Bytes) :
    (write_subspace_val db h k v).2 = (insertGet db (subspaceDbKey k) v).2 :=
  rfl

/-- C7: a subspace write on an absent key succeeds with delta `len(v)`,
and a second write of `v2` at the same key succeeds with delta
`len(v2) - len(v)`; neither fails on a missing prior value. -/
theorem C7_upsert_delta (h h2 : Nat) (k : Key) (v v2 : Bytes) (db : Store)
    (habs : getVal db (subspaceDbKey k) = none) :
    (write_subspace_val db h k v).1 = .ok (v.length : Int) ∧
    (write_subspace_val (write_subspace_val db h k v).2 h2 k v2).1 =
      .ok ((v2.length : Int) - (v.length : Int)) := by
  constructor
  · simp only [write_subspace_val]
    rw [insertGet_fst_of_absent db _ v habs]
  · rw [write_subspace_val_snd]
    simp only [write_subspace_val]
    rw [insertGet_fst_insert_self db _ v v2]

/-- Witness for C7: on the empty store, writing `[1]` at key `a` yields
delta `1`, then writing `[2, 3]` yields delta `1 = 2 - 1`. -/
theorem C7_upsert_delta_witness :
    (write_subspace_val [] 0 ⟨[("a").data]⟩ [1]).1 = .ok 1 ∧
    (write_subspace_val (write_subspace_val [] 0 ⟨[("a").data]⟩ [1]).2
      0 ⟨[("a").data]⟩ [2, 3]).1 = .ok 1 := by
  have hmain := C7_upsert_delta 0 0 ⟨[("a").data]⟩ [1] [2, 3] [] (by decide)
  simpa using hmain

/-! ## C8 -/

/-- A key that is not bound in the map is removed as a no-op. -/
theorem removeGet_of_absent (db : Store) (k : Str)
    (h : getVal db k = none) : removeGet db k = (none, db) := by
  induction db with
  | nil => rfl
  | cons e rest ih =>
    rcases e with ⟨k', v'⟩
    simp only [getVal] at h
    by_cases hk : k = k'
    · simp [hk] at h
    · simp only [if_neg hk] at h
      simp [removeGet, hk, ih h]

/-- Lookup misses every key not in the map's key list. -/
theorem getVal_eq_none_of_not_mem (db : Store) (k : Str)
    (h : k ∉ db.map Prod.fst) : getVal db k = none := by
  induction db with
  | nil => rfl
  | cons e rest ih =>
    rcases e with ⟨k', v'⟩
    simp only [List.map_cons, List.mem_cons] at h
    push_neg at h
    simp [getVal, h.1, ih h.2]

/-- Removing a bound key (in a duplicate-free map) reports its value and
unbinds it. -/
theorem removeGet_of_present (db : Store) (k : Str) (v : Bytes)
    (hnd : (db.map Prod.fst).Nodup) (h : getVal db k = some v) :
    (removeGet db k).1 = some v ∧ getVal (removeGet db k).2 k = none := by
  induction db with
  | nil => simp [getVal] at h
  | cons e rest ih =>
    rcases e with ⟨k', v'⟩
    simp only [List.map_cons, List.nodup_cons] at hnd
    simp only [getVal] at h
    by_cases hk : k = k'
    · rw [if_pos hk] at h
      have hv : v' = v := by injection h
      subst hv
      subst hk
      constructor
      · simp [removeGet]
      · simp only [removeGet, if_pos rfl]
        exact getVal_eq_none_of_not_mem rest _ hnd.1
    · rw [if_neg hk] at h
      have hr := ih hnd.2 h
      constructor
      · simp [removeGet, hk, hr.1]
      · simp [removeGet, getVal, hk, hr.2]

/-- The store produced by a subspace delete is the one produced by the
underlying map removal. -/
theorem delete_subspace_val_snd (db : Store) (h : Nat) (k : Key) :
    (delete_subspace_val db h k).2 = (removeGet db (subspaceDbKey k)).2 :=
  rfl

/-- C8: deleting an absent subspace key succeeds with `0` and leaves the
store unchanged; deleting a present key of byte length `n` succeeds with
`n`; in either case a subsequent point read of the key answers
`Ok(None)`. -/
theorem C8_delete_accounting (h : Nat) (k : Key) (db : Store)
    (hnd : (db.map Prod.fst).Nodup) :
    (getVal db (subspaceDbKey k) = none →
      delete_subspace_val db h k = (.ok 0, db) ∧
      read_subspace_val db k = .ok none) ∧
    (∀ v, getVal db (subspaceDbKey k) = some v →
      (delete_subspace_val db h k).1 = .ok (v.length : Int) ∧
      read_subspace_val (delete_subspace_val db h k).2 k = .ok none) := by
  constructor
  · intro habs
    constructor
    · simp only [delete_subspace_val]
      rw [removeGet_of_absent db _ habs]
    · unfold read_subspace_val
      rw [habs]
  · intro v hpres
    have hr := removeGet_of_present db (subspaceDbKey k) v hnd hpres
    constructor
    · simp only [delete_subspace_val]
      rw [hr.1]
    · rw [delete_subspace_val_snd]
      unfold read_subspace_val
      rw [hr.2]

/-- Witness for C8: the empty store (absent case) and the store holding
`subspace/a -> [7, 8]` (present case, freed length 2). -/
theorem C8_delete_accounting_witness :
    (delete_subspace_val ([] : Store) 0 ⟨[("a").data]⟩ = (.ok 0, []) ∧
      read_subspace_val ([] : Store) ⟨[("a").data]⟩ = .ok none) ∧
    ((delete_subspace_val dbC8 0 ⟨[("a").data]⟩).1 = .ok 2 ∧
      read_subspace_val (delete_subspace_val dbC8 0 ⟨[("a").data]⟩).2
        ⟨[("a").data]⟩ = .ok none) := by
  constructor
  · exact (C8_delete_accounting 0 ⟨[("a").data]⟩ [] (by decide)).1 (by decide)
  · have hmain := (C8_delete_accounting 0 ⟨[("a").data]⟩ dbC8 (by decide)).2
      [7, 8] (by decide)
    simpa using hmain

/-! ## C9 -/

/-- C9: the batched subspace operations of the mock backend coincide,
result and resulting store alike, with the direct point operations, and
`exec_batch` always succeeds leaving the store unchanged — the batch is
inert and staged operations are applied immediately. -/
theorem C9_batch_refinement (db : Store) (b : MockDBWriteBatch) (h : Nat)
    (k : Key) (v : Bytes) :
    batch_write_subspace_val db b h k v = write_subspace_val db h k v ∧
    batch_delete_subspace_val db b h k = delete_subspace_val db h k ∧
    exec_batch db b = (.ok (), db) :=
  ⟨rfl, rfl, rfl⟩

/-! ## C10 -/

/-- A string with `a ++ b` as a prefix has `a` as a prefix. -/
theorem isPrefixOf_of_append_left (a b k : Str)
    (h : (a ++ b).isPrefixOf k = true) : a.isPrefixOf k = true := by
  rw [List.isPrefixOf_iff_prefix] at h ⊢
  exact List.IsPrefix.trans (List.prefix_append a b) h

/-- C10: prefix iteration selects entries by raw string matching of the
full encoded key against `subspace/<prefix>` — equivalently it is the
filter of the map snapshot by that string prefix, each entry relativized
by dropping the 9 characters of `subspace/` and metered by relative key
length plus value length; with no segment-boundary test, the subspace
entry `ab/x` is yielded under prefix `a`. -/
theorem C10_raw_marker_iteration :
    (∀ (db : Store) (p : Key),
      iterPrefixEntries db p =
        (db.filter fun e =>
          (subspaceMarker ++ keyString p).isPrefixOf e.1).map
          (fun e => (e.1.drop 9, e.2, (e.1.drop 9).length + e.2.length))) ∧
    iterPrefixEntries dbC10 ⟨[("a").data]⟩ = [((("ab/x").data), [3], 5)] := by
  constructor
  · intro db p
    unfold iterPrefixEntries
    induction db with
    | nil => rfl
    | cons e rest ih =>
      rcases e with ⟨k, v⟩
      by_cases hp : (subspaceMarker ++ keyString p).isPrefixOf k = true
      · have hm : subspaceMarker.isPrefixOf k = true :=
          isPrefixOf_of_append_left _ _ k hp
        simp [mockIteratorFilter, hp, prefixIteratorRun, stripPrefixStr,
          hm, List.filter_cons, ih]
        exact ⟨rfl, rfl⟩
      · simp [mockIteratorFilter, hp, List.filter_cons, ih]
  · decide
